import Mathlib

set_option linter.unusedVariables false

/-!
Shallow embedding of the Student Management System (`main.py`).

The SQLite `students` table is modelled as a list of rows plus the next
AUTOINCREMENT id.  The application state carries the table together with the
undo and redo stacks kept by `StudentERPApp`.  The ambient
`self.current_user` and `self.current_role` session fields are passed to the
operations as an explicit `role` argument; the audit log, message boxes and
widget layer are pure observers and are not part of the state.  `CURRENT_TIMESTAMP`
is supplied as an explicit `now` argument.  Python string functions are
modelled on the ASCII fragment (Char.isAlpha, Char.isDigit, pyStrip for
str.strip, lowerStr for str.lower), which covers every value the claims
mention; the model versions use structural list recursion so that concrete
states reduce inside the kernel.
-/

/-- A row of the `students` table (`init_db`, lines 61-69). -/
structure Student where
  id : Nat
  name : String
  roll : String
  course : String
  marks : Int
  created_at : String
deriving Repr, DecidableEq

/-- The `students` table plus the AUTOINCREMENT counter. -/
structure DB where
  students : List Student
  nextId : Nat
deriving Repr, DecidableEq

/-- Does some row already carry this roll (the UNIQUE constraint on `roll`). -/
def rollExists (db : DB) (roll : String) : Bool :=
  db.students.any (fun t => t.roll == roll)

/-- Python `str.strip()` on the ASCII whitespace characters, written with
    structural list recursion so that concrete states evaluate inside proofs. -/
def pyStrip (s : String) : String :=
  ⟨((s.data.dropWhile Char.isWhitespace).reverse.dropWhile Char.isWhitespace).reverse⟩

/-- Python `str.lower()` on ASCII letters. -/
def lowerStr (s : String) : String :=
  ⟨s.data.map Char.toLower⟩

/-- Digit string to number, most significant first. -/
def digitsToNat (cs : List Char) : Nat :=
  cs.foldl (fun acc c => acc * 10 + (c.toNat - 48)) 0

/-- Python `int(s)` on a string for which `s.isdigit()` holds: defined exactly
    when the string is non-empty and all digits. -/
def pyToNat? (s : String) : Option Nat :=
  if !s.data.isEmpty && s.data.all Char.isDigit then some (digitsToNat s.data)
  else none

/-- Name rule from `validate_form`: every character is a letter, space, dot or hyphen. -/
def validNameChar (c : Char) : Bool :=
  c.isAlpha || c == ' ' || c == '.' || c == '-'

/-- Name check of `validate_form` (line 355): non-empty, only allowed characters. -/
def validName (name : String) : Bool :=
  name != "" && name.data.all validNameChar

/-- Roll check of `validate_form` (line 361): non-empty digits, at most 12 of them. -/
def validRoll (roll : String) : Bool :=
  roll != "" && roll.data.all Char.isDigit && roll.data.length <= 12

/-- Marks check of `validate_form` (line 373): `marks.isdigit()` and value at most 100.
    `pyToNat?` succeeds exactly on non-empty all-digit strings, as `isdigit` does. -/
def validMarksStr (marks : String) : Bool :=
  match pyToNat? marks with
  | some n => n <= 100
  | none => false

/-- The four form fields as entered (`self.m_name` etc.). -/
structure FormInput where
  name : String
  roll : String
  course : String
  marks : String
deriving Repr, DecidableEq

/-- `StudentERPApp.validate_form` (lines 348-385): each field is stripped and checked. -/
def validate_form (f : FormInput) : Bool :=
  validName (pyStrip f.name) && validRoll (pyStrip f.roll) &&
    pyStrip f.course != "" && validMarksStr (pyStrip f.marks)

/-- The `int(self.m_marks.get().strip())` conversion used by add and update;
    validation guarantees the string is all digits, so `getD` is never hit. -/
def parsedMarks (s : String) : Int :=
  ((pyToNat? (pyStrip s)).getD 0 : Nat)

/-- The `old` dictionary pushed by `update_student` (line 422): the tree values,
    without `created_at`. -/
structure UpdateOld where
  id : Nat
  name : String
  roll : String
  course : String
  marks : Int
deriving Repr, DecidableEq

/-- The tuples pushed on `self.undo_stack` (lines 404, 437, 470). -/
inductive UndoEntry where
  | delete (roll : String)
  | insert (row : Student)
  | update (id : Nat) (old : UpdateOld)
deriving Repr, DecidableEq

/-- The tuples pushed on `self.redo_stack` (lines 565, 575, 585). -/
inductive RedoEntry where
  | insert (roll : String)
  | delete (roll : String)
  | update_redo (id : Nat)
deriving Repr, DecidableEq

/-- The mutable application state: the database plus both stacks. -/
structure AppState where
  db : DB
  undo_stack : List UndoEntry
  redo_stack : List RedoEntry
deriving Repr, DecidableEq

/-- Outcome of `add_student`: validation warning, IntegrityError message, or success. -/
inductive AddResult where
  | validationError
  | duplicateRoll
  | ok
deriving Repr, DecidableEq

/-- `StudentERPApp.add_student` (lines 387-413).  The INSERT hits
    `sqlite3.IntegrityError` exactly when the stripped roll already exists;
    on success the new row gets the next id, `created_at` defaults to `now`,
    a `("delete", roll)` undo entry is pushed and the redo stack is cleared. -/
def add_student (role : String) (f : FormInput) (now : String) (s : AppState) :
    AppState × AddResult :=
  if !(validate_form f) then (s, .validationError)
  else
    let name := pyStrip f.name
    let roll := pyStrip f.roll
    let course := pyStrip f.course
    let marks := parsedMarks f.marks
    if rollExists s.db roll then (s, .duplicateRoll)
    else
      ({ db := { students := s.db.students ++
                   [{ id := s.db.nextId, name := name, roll := roll,
                      course := course, marks := marks, created_at := now }],
                 nextId := s.db.nextId + 1 },
         undo_stack := .delete roll :: s.undo_stack,
         redo_stack := [] }, .ok)

/-- A selected row of the Treeview, as `update_student` reads it (line 420-422). -/
structure TreeRow where
  id : Nat
  name : String
  roll : String
  course : String
  marks : Int
deriving Repr, DecidableEq

/-- Outcome of `update_student`. -/
inductive UpdateResult where
  | noSelection
  | validationError
  | duplicateRoll
  | ok
deriving Repr, DecidableEq

/-- Semantics of `UPDATE students SET name=?, roll=?, course=?, marks=? WHERE id=?`:
    `none` models `sqlite3.IntegrityError`, raised exactly when a row with the
    target id exists and a different row already holds the new roll; otherwise
    every row with the target id is rewritten (zero rows affected is success). -/
def applyUpdate (db : DB) (sid : Nat) (name roll course : String) (marks : Int) :
    Option DB :=
  if (db.students.any fun t => t.id == sid) &&
     (db.students.any fun t => t.id != sid && t.roll == roll) then none
  else
    some { db with students := db.students.map (fun t =>
      if t.id == sid then
        { t with name := name, roll := roll, course := course, marks := marks }
      else t) }

/-- `StudentERPApp.update_student` (lines 415-446): needs a selection, validates
    the form, runs the UPDATE, pushes an `("update", id, old)` undo entry and
    clears the redo stack.  The WHERE clause matches by id only, so an absent id
    updates nothing and still reports success. -/
def update_student (role : String) (sel : Option TreeRow) (f : FormInput) (s : AppState) :
    AppState × UpdateResult :=
  match sel with
  | none => (s, .noSelection)
  | some row =>
    if !(validate_form f) then (s, .validationError)
    else
      match applyUpdate s.db row.id (pyStrip f.name) (pyStrip f.roll) (pyStrip f.course)
          (parsedMarks f.marks) with
      | none => (s, .duplicateRoll)
      | some db2 =>
        ({ db := db2,
           undo_stack := .update row.id
             { id := row.id, name := row.name, roll := row.roll,
               course := row.course, marks := row.marks } :: s.undo_stack,
           redo_stack := [] }, .ok)

/-- Outcome of `delete_student`. -/
inductive DeleteResult where
  | noSelection
  | guestDenied
  | notFound
  | ok
deriving Repr, DecidableEq

/-- `StudentERPApp.delete_student` (lines 448-477): needs a selection, denies
    the Guest role before touching the database, reads the full stored row
    (all six fields) for the undo entry, then deletes by id.  A stale selection
    whose id is gone makes `dict(cur.fetchone())` raise, which the except block
    turns into an error with no change. -/
def delete_student (role : String) (sel : Option Nat) (s : AppState) :
    AppState × DeleteResult :=
  match sel with
  | none => (s, .noSelection)
  | some sid =>
    if role == "Guest" then (s, .guestDenied)
    else
      match s.db.students.find? (fun t => t.id == sid) with
      | none => (s, .notFound)
      | some old =>
        ({ db := { s.db with students := s.db.students.filter (fun t => t.id != sid) },
           undo_stack := .insert old :: s.undo_stack,
           redo_stack := [] }, .ok)

/-- Outcome of `undo_action`: empty stack, success, or a caught IntegrityError. -/
inductive UndoResult where
  | empty
  | done
  | failed
deriving Repr, DecidableEq

/-- `StudentERPApp.undo_action` (lines 552-589).  Pops the stack first, then:
    a `("delete", roll)` entry runs `DELETE FROM students WHERE roll=?`;
    an `("insert", row)` entry re-inserts the saved row with its original id
    and created_at (IntegrityError if the id or roll is taken, in which case
    the entry is already popped and no redo entry is pushed);
    an `("update", id, old)` entry writes the old values back by id.
    Each successful branch pushes the matching redo entry. -/
def undo_action (s : AppState) : AppState × UndoResult :=
  match s.undo_stack with
  | [] => (s, .empty)
  | .delete roll :: rest =>
      ({ db := { s.db with students := s.db.students.filter (fun t => t.roll != roll) },
         undo_stack := rest,
         redo_stack := .insert roll :: s.redo_stack }, .done)
  | .insert row :: rest =>
      if s.db.students.any (fun t => t.id == row.id || t.roll == row.roll) then
        ({ s with undo_stack := rest }, .failed)
      else
        ({ db := { students := s.db.students ++ [row],
                   nextId := max s.db.nextId (row.id + 1) },
           undo_stack := rest,
           redo_stack := .delete row.roll :: s.redo_stack }, .done)
  | .update _ old :: rest =>
      if (s.db.students.any fun t => t.id == old.id) &&
         (s.db.students.any fun t => t.id != old.id && t.roll == old.roll) then
        ({ s with undo_stack := rest }, .failed)
      else
        ({ db := { s.db with students := s.db.students.map (fun t =>
               if t.id == old.id then
                 { t with name := old.name, roll := old.roll,
                          course := old.course, marks := old.marks }
               else t) },
           undo_stack := rest,
           redo_stack := .update_redo old.id :: s.redo_stack }, .done)

/-- Outcome of `redo_action`. -/
inductive RedoResult where
  | empty
  | done
deriving Repr, DecidableEq

/-- `StudentERPApp.redo_action` (lines 591-598): pops the redo stack, shows a
    success message and reloads the page; no write is issued to the database. -/
def redo_action (s : AppState) : AppState × RedoResult :=
  match s.redo_stack with
  | [] => (s, .empty)
  | _ :: rest => ({ s with redo_stack := rest }, .done)

/-- A row of the `users` table. -/
structure Credential where
  username : String
  password : String
  role : String
deriving Repr, DecidableEq

/-- Outcome of `handle_login`. -/
inductive LoginResult where
  | emptyFields
  | ok (role : String)
  | invalid
deriving Repr, DecidableEq

/-- `StudentERPApp.handle_login` (lines 163-180): both inputs are stripped, empty
    values are rejected before the query, then an exact match against the users
    table is required and the matched role becomes the session role. -/
def handle_login (users : List Credential) (u p : String) : LoginResult :=
  let user := pyStrip u
  let pwd := pyStrip p
  if user == "" || pwd == "" then .emptyFields
  else
    match users.find? (fun c => c.username == user && c.password == pwd) with
    | some c => .ok c.role
    | none => .invalid

/-- The two accounts seeded by `init_db` (lines 92-99). -/
def seededUsers : List Credential :=
  [{ username := "admin", password := "admin", role := "Admin" },
   { username := "teacher", password := "teacher", role := "Teacher" }]

/-- One data row of an import file, after the header check; pandas with
    `dtype=str` hands every cell to the insert as a string. -/
structure ImportRow where
  name : String
  roll : String
  course : String
  marks : String
deriving Repr, DecidableEq

/-- The `int(float(r["marks"]))` conversion of `import_file` (line 688) on plain
    decimal literals: optional surrounding whitespace, optional sign, digits with
    an optional fractional part; truncation toward zero.  Exponent, infinity and
    NaN spellings are not modelled (no claim mentions them). -/
def pyIntOfFloatStr (s : String) : Option Int :=
  let t := (pyStrip s).data
  let signed : Bool × List Char :=
    match t with
    | '-' :: rest => (true, rest)
    | '+' :: rest => (false, rest)
    | _ => (false, t)
  let intPart := signed.2.takeWhile Char.isDigit
  let rest := signed.2.dropWhile Char.isDigit
  let ok : Bool :=
    match rest with
    | [] => !intPart.isEmpty
    | '.' :: fr => fr.all Char.isDigit && (!intPart.isEmpty || !fr.isEmpty)
    | _ => false
  if ok then
    let v : Int := (digitsToNat intPart : Nat)
    some (if signed.1 then -v else v)
  else none

/-- One iteration of the insert loop of `import_file` (lines 685-691): the row
    is inserted directly with `INSERT INTO students (name,roll,course,marks)`;
    the bare except skips a row whose marks do not parse or whose roll collides
    with any row already in the table (including rows inserted earlier in the
    same file).  No field validation runs: an empty name satisfies NOT NULL. -/
def import_step (now : String) (acc : DB × Nat) (r : ImportRow) : DB × Nat :=
  match pyIntOfFloatStr r.marks with
  | none => acc
  | some m =>
    if rollExists acc.1 r.roll then acc
    else
      ({ students := acc.1.students ++
           [{ id := acc.1.nextId, name := r.name, roll := r.roll,
              course := r.course, marks := m, created_at := now }],
         nextId := acc.1.nextId + 1 }, acc.2 + 1)

/-- The insert loop of `StudentERPApp.import_file` (lines 681-693), counting the
    successful inserts. -/
def import_rows (db : DB) (now : String) (rows : List ImportRow) : DB × Nat :=
  rows.foldl (import_step now) (db, 0)

/-- The page count computed by `load_page` and `next_page` (lines 534, 543):
    `max(1, (total_rows + page_size - 1) // page_size)`. -/
def total_pages (total_rows page_size : Nat) : Nat :=
  max 1 ((total_rows + page_size - 1) / page_size)

/-- The NOCASE collation key used by `ORDER BY name COLLATE NOCASE`: SQLite
    folds ASCII case and compares bytes lexicographically, modelled as the
    lowercased character list under the lexicographic order. -/
def nameKey (t : Student) : List Char :=
  (lowerStr t.name).data

/-- SQLite `field LIKE '%search%'`: case-insensitive substring containment. -/
def likeMatch (field search : String) : Bool :=
  decide ((lowerStr search).data <:+: (lowerStr field).data)

/-- The WHERE clause built by `build_query_base` (lines 500-508): an empty
    stripped search matches everything, otherwise roll, name or course must
    contain the text. -/
def build_query_filter (searchText : String) (t : Student) : Bool :=
  let search := pyStrip searchText
  if search == "" then true
  else likeMatch t.roll search || likeMatch t.name search || likeMatch t.course search

/-- Sortedness under the NOCASE ordering of `ORDER BY name COLLATE NOCASE`. -/
def sortedByName (l : List Student) : Prop :=
  l.Pairwise (fun a b => nameKey a ≤ nameKey b)

/-- The row sequences the SELECT of `load_page` (line 525) may return: SQLite
    orders the matching rows by the NOCASE key and leaves the relative order of
    rows with equal keys unspecified, then applies OFFSET and LIMIT.  The
    predicate therefore admits every stable or unstable arrangement of ties. -/
def load_page_rows (db : DB) (searchText : String) (page page_size : Nat)
    (out : List Student) : Prop :=
  ∃ ordered : List Student,
    ordered.Perm (db.students.filter (build_query_filter searchText)) ∧
    sortedByName ordered ∧
    out = (ordered.drop (page * page_size)).take page_size

/-- Ties under the NOCASE key listed in ascending id order (what the spec
    asserts about equal names; the SQL has no such tiebreaker). -/
def tiesById (l : List Student) : Prop :=
  l.Pairwise (fun a b => nameKey a = nameKey b → a.id ≤ b.id)

/-! Shared helper lemmas. -/

/-- find? returns the unique element satisfying the predicate. -/
theorem find_of_mem_of_unique {α : Type} {p : α → Bool} {l : List α} {x : α}
    (hmem : x ∈ l) (hpx : p x = true)
    (huniq : ∀ y ∈ l, p y = true → y = x) :
    l.find? p = some x := by
  induction l with
  | nil => cases hmem
  | cons a l ih =>
    rcases List.mem_cons.mp hmem with rfl | hm
    · rw [List.find?_cons_of_pos l hpx]
    · by_cases hpa : p a = true
      · have hax : a = x := huniq a (List.mem_cons_self a l) hpa
        rw [List.find?_cons_of_pos l hpa, hax]
      · rw [List.find?_cons_of_neg l hpa]
        exact ih hm (fun y hy hpy => huniq y (List.mem_cons_of_mem a hy) hpy)

/-- Removing the unique element satisfying p and appending it back is a
    permutation of the original list. -/
theorem filter_remove_unique {α : Type} {p : α → Bool} {l : List α} {r : α}
    (hnd : l.Nodup) (hmem : r ∈ l) (hpr : p r = true)
    (huniq : ∀ y ∈ l, p y = true → y = r) :
    ((l.filter (fun t => !(p t))) ++ [r]).Perm l := by
  induction l with
  | nil => cases hmem
  | cons a l ih =>
    rcases List.mem_cons.mp hmem with rfl | hm
    · have hnotin : r ∉ l := (List.nodup_cons.mp hnd).1
      have hfl : l.filter (fun t => !(p t)) = l := by
        refine List.filter_eq_self.mpr (fun y hy => ?_)
        have : p y ≠ true := fun hpy => hnotin (huniq y (List.mem_cons_of_mem r hy) hpy ▸ hy)
        simp [this]
      have hpr2 : (!(p r)) = false := by simp [hpr]
      simp only [List.filter_cons, hpr2, if_neg, hfl, Bool.false_eq_true, ite_false]
      exact List.perm_append_singleton r l
    · have hpa : p a ≠ true := fun hpa => by
        have : a = r := huniq a (List.mem_cons_self a l) hpa
        exact (List.nodup_cons.mp hnd).1 (this ▸ hm)
      have hpf : p a = false := by simpa using hpa
      have hpa2 : (!(p a)) = true := by simp [hpf]
      simp only [List.filter_cons, hpa2, ite_true, List.cons_append]
      exact List.Perm.cons a (ih (List.nodup_cons.mp hnd).2 hm
        (fun y hy hpy => huniq y (List.mem_cons_of_mem a hy) hpy))

/-- Mapping a function that fixes every member is the identity. -/
theorem map_noop {α : Type} {f : α → α} {l : List α} (h : ∀ a ∈ l, f a = a) :
    l.map f = l := by
  induction l with
  | nil => rfl
  | cons a l ih =>
    rw [List.map_cons, h a (List.mem_cons_self a l),
      ih (fun b hb => h b (List.mem_cons_of_mem a hb))]

/-! Claim theorems. -/

/-- C6: for every totalMatching and every pageSize > 0, the reported page count
    is 1 when no row matches and otherwise equals the ceiling of
    totalMatching / pageSize. -/
theorem C6_total_pages_is_ceil (total ps : Nat) (hps : 0 < ps) :
    (total = 0 → total_pages total ps = 1) ∧
    (0 < total → total_pages total ps = ⌈(total : ℚ) / (ps : ℚ)⌉₊) := by
  constructor
  · intro h
    subst h
    have h0 : (0 + ps - 1) / ps = 0 := Nat.div_eq_of_lt (by omega)
    simp only [total_pages, h0]
    omega
  · intro hpos
    have hn1 : 1 ≤ (total + ps - 1) / ps :=
      (Nat.one_le_div_iff hps).mpr (by omega)
    have hmax : total_pages total ps = (total + ps - 1) / ps := by
      simp only [total_pages]
      omega
    set n := (total + ps - 1) / ps with hn
    have hd1 : n * ps ≤ total + ps - 1 := Nat.div_mul_le_self _ _
    have hd2 : total + ps - 1 < (n + 1) * ps :=
      (Nat.div_lt_iff_lt_mul hps).mp (Nat.lt_succ_self n)
    have e1 : (n - 1) * ps + ps = n * ps := by
      have : n - 1 + 1 = n := Nat.succ_pred_eq_of_pos hn1
      calc (n - 1) * ps + ps = ((n - 1) + 1) * ps := by ring
      _ = n * ps := by rw [this]
    have e2 : (n + 1) * ps = n * ps + ps := by ring
    have hlt : (n - 1) * ps < total := by omega
    have hle : total ≤ n * ps := by omega
    have hps' : (0 : ℚ) < (ps : ℚ) := by exact_mod_cast hps
    rw [hmax]
    symm
    rw [Nat.ceil_eq_iff (by omega : n ≠ 0)]
    constructor
    · rw [lt_div_iff₀ hps']
      exact_mod_cast hlt
    · rw [div_le_iff₀ hps']
      exact_mod_cast hle

/-- C6 witness: 5 matching rows with page size 2 give 3 pages, the ceiling. -/
theorem C6_total_pages_is_ceil_witness :
    total_pages 5 2 = ⌈(5 : ℚ) / (2 : ℚ)⌉₊ :=
  (C6_total_pages_is_ceil 5 2 (by norm_num)).2 (by norm_num)

/-- C8: after any successful undo, redo pops the redo stack and reports success
    but performs no write: the student table (and the whole database) is
    unchanged, and the undone change is not reapplied. -/
theorem C8_redo_is_noop (s s2 : AppState) (h : undo_action s = (s2, .done)) :
    (redo_action s2).2 = .done ∧
    (redo_action s2).1.db = s2.db ∧
    (redo_action s2).1.undo_stack = s2.undo_stack ∧
    (redo_action s2).1.redo_stack = s2.redo_stack.tail := by
  have hne : s2.redo_stack ≠ [] := by
    unfold undo_action at h
    split at h
    · exact absurd (congrArg Prod.snd h) (by simp)
    · cases h
      simp
    · split at h
      · exact absurd (congrArg Prod.snd h) (by simp)
      · cases h
        simp
    · split at h
      · exact absurd (congrArg Prod.snd h) (by simp)
      · cases h
        simp
  match hstk : s2.redo_stack with
  | [] => exact absurd hstk hne
  | e :: rest => simp [redo_action, hstk]

/-! Concrete rows, forms and states used by witnesses and counterexamples. -/

/-- Example stored row. -/
def exStudent1 : Student :=
  { id := 1, name := "Amy", roll := "1", course := "CS", marks := 90, created_at := "t1" }

/-- Second example stored row. -/
def exStudent2 : Student :=
  { id := 2, name := "Bob", roll := "2", course := "CS", marks := 80, created_at := "t2" }

/-- Example state with two stored students and empty stacks. -/
def exState : AppState :=
  { db := { students := [exStudent1, exStudent2], nextId := 3 },
    undo_stack := [], redo_stack := [] }

/-- Example valid form input with a fresh roll. -/
def exForm : FormInput :=
  { name := "Cara", roll := "3", course := "CS", marks := "70" }

/-- Example state whose undo stack holds one entry pushed by an add. -/
def exUndoState : AppState :=
  { db := { students := [exStudent1], nextId := 2 },
    undo_stack := [.delete "9"], redo_stack := [] }

/-- C8 witness: a concrete state after a successful undo, on which redo pops and
    changes nothing. -/
theorem C8_redo_is_noop_witness :
    (redo_action (undo_action exUndoState).1).2 = .done ∧
    (redo_action (undo_action exUndoState).1).1.db = (undo_action exUndoState).1.db ∧
    (redo_action (undo_action exUndoState).1).1.undo_stack
      = (undo_action exUndoState).1.undo_stack ∧
    (redo_action (undo_action exUndoState).1).1.redo_stack
      = (undo_action exUndoState).1.redo_stack.tail :=
  C8_redo_is_noop exUndoState (undo_action exUndoState).1 (by decide)

/-- C3: starting from any state whose table does not hold the roll yet, two
    validated creates with the same roll give: first ok, second the distinct
    duplicate-roll error with no effect at all on the state, and a row count
    that grows by exactly one across the pair. -/
theorem C3_duplicate_roll_second_create (s : AppState) (role1 role2 : String)
    (f1 f2 : FormInput) (now1 now2 : String)
    (hv1 : validate_form f1 = true) (hv2 : validate_form f2 = true)
    (hroll : pyStrip f2.roll = pyStrip f1.roll)
    (hfresh : rollExists s.db (pyStrip f1.roll) = false) :
    (add_student role1 f1 now1 s).2 = .ok ∧
    (add_student role2 f2 now2 (add_student role1 f1 now1 s).1).2 = .duplicateRoll ∧
    (add_student role2 f2 now2 (add_student role1 f1 now1 s).1).1 =
      (add_student role1 f1 now1 s).1 ∧
    (add_student role1 f1 now1 s).1.db.students.length = s.db.students.length + 1 := by
  have h1 : add_student role1 f1 now1 s =
      ({ db := { students := s.db.students ++
                   [{ id := s.db.nextId, name := pyStrip f1.name, roll := pyStrip f1.roll,
                      course := pyStrip f1.course, marks := parsedMarks f1.marks,
                      created_at := now1 }],
                 nextId := s.db.nextId + 1 },
         undo_stack := .delete (pyStrip f1.roll) :: s.undo_stack,
         redo_stack := [] }, .ok) := by
    simp [add_student, hv1, hfresh]
  rw [h1]
  have h2 : rollExists
      { students := s.db.students ++
          [{ id := s.db.nextId, name := pyStrip f1.name, roll := pyStrip f1.roll,
             course := pyStrip f1.course, marks := parsedMarks f1.marks,
             created_at := now1 }],
        nextId := s.db.nextId + 1 : DB } (pyStrip f2.roll) = true := by
    simp [rollExists, List.any_append, hroll]
  refine ⟨rfl, ?_, ?_, by simp⟩
  · simp [add_student, hv2, h2]
  · simp [add_student, hv2, h2]

/-- C3 witness: adding roll 3 twice to the example state. -/
theorem C3_duplicate_roll_witness :
    (add_student "Admin" exForm "t3" exState).2 = .ok ∧
    (add_student "Teacher" exForm "t4" (add_student "Admin" exForm "t3" exState).1).2
      = .duplicateRoll ∧
    (add_student "Teacher" exForm "t4" (add_student "Admin" exForm "t3" exState).1).1 =
      (add_student "Admin" exForm "t3" exState).1 ∧
    (add_student "Admin" exForm "t3" exState).1.db.students.length
      = exState.db.students.length + 1 :=
  C3_duplicate_roll_second_create exState "Admin" "Teacher" exForm exForm "t3" "t4"
    (by decide) (by decide) rfl (by decide)

/-- C7: delete with a selection is denied for the Guest role with the state
    untouched, while add and update run no role check at all: with any role,
    Guest included, a validated add with a fresh roll succeeds and a validated
    update with a conflict-free roll succeeds. -/
theorem C7_guest_gating :
    (∀ s sid, delete_student "Guest" (some sid) s = (s, .guestDenied)) ∧
    (∀ role f now s, validate_form f = true → rollExists s.db (pyStrip f.roll) = false →
      (add_student role f now s).2 = .ok) ∧
    (∀ role row f s, validate_form f = true →
      (∀ t ∈ s.db.students, t.roll ≠ pyStrip f.roll ∨ t.id = row.id) →
      (update_student role (some row) f s).2 = .ok) := by
  refine ⟨fun s sid => by simp [delete_student],
    fun role f now s hv hfresh => by simp [add_student, hv, hfresh],
    fun role row f s hv hnc => ?_⟩
  have h2 : (s.db.students.any fun t => t.id != row.id && t.roll == pyStrip f.roll) = false := by
    rw [List.any_eq_false]
    intro t ht
    rcases hnc t ht with h | h
    · simp [h]
    · simp [h]
  cases hres : applyUpdate s.db row.id (pyStrip f.name) (pyStrip f.roll) (pyStrip f.course)
      (parsedMarks f.marks) with
  | none =>
    exfalso
    unfold applyUpdate at hres
    rw [h2, Bool.and_false] at hres
    simp at hres
  | some db2 =>
    simp [update_student, hv, hres]

/-- C7 witness: on the example state, Guest delete is denied while Guest add and
    Guest update both succeed. -/
theorem C7_guest_gating_witness :
    delete_student "Guest" (some 1) exState = (exState, .guestDenied) ∧
    (add_student "Guest" exForm "t3" exState).2 = .ok ∧
    (update_student "Guest" (some ⟨1, "Amy", "1", "CS", 90⟩) exForm exState).2 = .ok :=
  ⟨C7_guest_gating.1 exState 1,
   C7_guest_gating.2.1 "Guest" exForm "t3" exState (by decide) (by decide),
   C7_guest_gating.2.2 "Guest" ⟨1, "Amy", "1", "CS", 90⟩ exForm exState
     (by decide) (by decide)⟩

/-- C4 counterexample: with stored ids 1 and 2 only, updating a stale selection
    with id 5 reports ok (the success message), not a NotFound error; the table
    is unchanged.  This refutes the claim that such an update yields NotFound. -/
theorem C4_counterexample :
    (update_student "Admin" (some ⟨5, "Eve", "9", "CS", 10⟩) exForm exState).2 = .ok ∧
    (update_student "Admin" (some ⟨5, "Eve", "9", "CS", 10⟩) exForm exState).1.db.students
      = exState.db.students := by decide

/-- C4 amended: an update whose target id is absent leaves the student table
    unchanged but reports success (the UPDATE matches zero rows); no NotFound
    error is surfaced. -/
theorem C4_update_absent_id_reports_success (role : String) (row : TreeRow)
    (f : FormInput) (s : AppState)
    (hv : validate_form f = true)
    (habs : ∀ t ∈ s.db.students, t.id ≠ row.id) :
    (update_student role (some row) f s).2 = .ok ∧
    (update_student role (some row) f s).1.db.students = s.db.students := by
  have h1 : (s.db.students.any fun t => t.id == row.id) = false := by
    rw [List.any_eq_false]
    intro t ht
    simpa using habs t ht
  have hmap : s.db.students.map (fun t =>
      if t.id == row.id then
        { t with name := pyStrip f.name, roll := pyStrip f.roll, course := pyStrip f.course,
                 marks := parsedMarks f.marks }
      else t) = s.db.students := by
    refine map_noop (fun a ha => ?_)
    have : (a.id == row.id) = false := by simpa using habs a ha
    simp [this]
  have happ : applyUpdate s.db row.id (pyStrip f.name) (pyStrip f.roll) (pyStrip f.course)
      (parsedMarks f.marks) = some s.db := by
    unfold applyUpdate
    rw [h1, Bool.false_and, if_neg (by simp), hmap]
  simp [update_student, hv, happ]

/-- C4 amended witness: updating absent id 7 on the example state. -/
theorem C4_update_absent_id_witness :
    (update_student "Admin" (some ⟨7, "Eve", "9", "CS", 10⟩) exForm exState).2 = .ok ∧
    (update_student "Admin" (some ⟨7, "Eve", "9", "CS", 10⟩) exForm exState).1.db.students
      = exState.db.students :=
  C4_update_absent_id_reports_success "Admin" ⟨7, "Eve", "9", "CS", 10⟩ exForm exState
    (by decide) (by decide)

/-- C9: the roll-indexed scenario of the claim, on a concrete mixed state. -/
def exRollState : AppState :=
  { db := { students := [exStudent1, exStudent2], nextId := 3 },
    undo_stack := [.delete "2"], redo_stack := [] }

/-- C9: an undo whose top entry was pushed by an add (which records only the
    roll) deletes by that roll, not by the inserted id: the table keeps exactly
    the rows whose roll differs; if no current row has the roll the table is
    unchanged; any current row carrying the roll is removed whatever its id;
    and a successful add indeed records the stripped roll on the undo stack. -/
theorem C9_undo_add_deletes_by_roll (s : AppState) (roll : String)
    (rest : List UndoEntry) (htop : s.undo_stack = .delete roll :: rest) :
    (undo_action s).2 = .done ∧
    (undo_action s).1.db.students = s.db.students.filter (fun t => t.roll != roll) ∧
    ((∀ t ∈ s.db.students, t.roll ≠ roll) →
      (undo_action s).1.db.students = s.db.students) ∧
    (∀ b ∈ s.db.students, b.roll = roll → b ∉ (undo_action s).1.db.students) ∧
    (∀ role f now s0, (add_student role f now s0).2 = .ok →
      (add_student role f now s0).1.undo_stack.head?
        = some (.delete (pyStrip f.roll))) := by
  have hu : undo_action s =
      ({ db := { s.db with students := s.db.students.filter (fun t => t.roll != roll) },
         undo_stack := rest,
         redo_stack := .insert roll :: s.redo_stack }, .done) := by
    unfold undo_action
    rw [htop]
  refine ⟨by rw [hu], by rw [hu], ?_, ?_, ?_⟩
  · intro h
    rw [hu]
    refine List.filter_eq_self.mpr (fun t ht => ?_)
    exact bne_iff_ne.mpr (h t ht)
  · intro b hb hroll
    rw [hu]
    intro hmem
    have hcond := (List.mem_filter.mp hmem).2
    exact absurd hroll (by simpa using hcond)
  · intro role f now s0 hok
    cases hv : validate_form f with
    | false => exact absurd hok (by simp [add_student, hv])
    | true =>
      cases hr : rollExists s0.db (pyStrip f.roll) with
      | true => exact absurd hok (by simp [add_student, hv, hr])
      | false => simp [add_student, hv, hr]

/-- C9 witness: undoing an add entry that recorded roll 2 removes the row that
    currently carries roll 2. -/
theorem C9_undo_add_deletes_by_roll_witness :
    (undo_action exRollState).2 = .done ∧
    (undo_action exRollState).1.db.students
      = exRollState.db.students.filter (fun t => t.roll != "2") :=
  ⟨(C9_undo_add_deletes_by_roll exRollState "2" [] rfl).1,
   (C9_undo_add_deletes_by_roll exRollState "2" [] rfl).2.1⟩

/-- C10: login strips surrounding whitespace from both entries before the
    comparison: whenever the stripped inputs coincide with a stored credential
    (the inputs differ from it only by surrounding whitespace) and the stored
    fields are non-empty, login succeeds and yields exactly that stored role. -/
theorem C10_login_strips_whitespace (users : List Credential) (c : Credential)
    (u p : String)
    (hnodup : (users.map Credential.username).Nodup)
    (hmem : c ∈ users)
    (hu : pyStrip u = c.username) (hp : pyStrip p = c.password)
    (hune : c.username ≠ "") (hpne : c.password ≠ "") :
    handle_login users u p = .ok c.role := by
  have hfind : users.find?
      (fun d => d.username == c.username && d.password == c.password) = some c := by
    apply find_of_mem_of_unique hmem
    · simp
    · intro y hy hpy
      simp only [Bool.and_eq_true, beq_iff_eq] at hpy
      exact List.inj_on_of_nodup_map hnodup hy hmem hpy.1
  have h1 : (c.username == "") = false := beq_eq_false_iff_ne.mpr hune
  have h2 : (c.password == "") = false := beq_eq_false_iff_ne.mpr hpne
  simp only [handle_login, hu, hp, h1, h2, Bool.or_self, Bool.false_eq_true,
    if_false, hfind]

/-- C10 witness: padded admin credentials log in as Admin. -/
theorem C10_login_strips_whitespace_witness :
    handle_login seededUsers "  admin " "admin  " = .ok "Admin" :=
  C10_login_strips_whitespace seededUsers
    { username := "admin", password := "admin", role := "Admin" }
    "  admin " "admin  " (by decide) (by decide) (by decide) (by decide)
    (by decide) (by decide)

/-- The first import row of the claim example. -/
def amyRow : ImportRow := { name := "Amy", roll := "1", course := "CS", marks := "90" }

/-- The second import row of the claim example: its name is empty. -/
def blankNameRow : ImportRow := { name := "", roll := "2", course := "CS", marks := "80" }

/-- An empty students table. -/
def emptyDB : DB := { students := [], nextId := 1 }

/-- C2 counterexample: the import loop bypasses `validate_form` entirely, and
    an empty name still satisfies the NOT NULL constraint, so the claim example
    inserts 2 rows (the empty-name row included), not 1. -/
theorem C2_counterexample :
    (import_rows emptyDB "t0" [amyRow, blankNameRow]).2 = 2 ∧
    (import_rows emptyDB "t0" [amyRow, blankNameRow]).1.students.map Student.name
      = ["Amy", ""] := by decide

/-- Accounting for the import fold: every insert counted actually landed in the
    table and each row adds at most one. -/
theorem import_fold_accounting (now : String) (rows : List ImportRow) :
    ∀ db n, ((rows.foldl (import_step now) (db, n)).1.students.length + n
        = db.students.length + (rows.foldl (import_step now) (db, n)).2) ∧
      (rows.foldl (import_step now) (db, n)).2 ≤ n + rows.length := by
  induction rows with
  | nil =>
    intro db n
    simp
  | cons r rows ih =>
    intro db n
    rcases hstep : import_step now (db, n) r with ⟨db2, n2⟩
    have hstep2 : db2.students.length + n = db.students.length + n2 ∧
        (n2 = n ∨ n2 = n + 1) := by
      unfold import_step at hstep
      split at hstep
      · cases hstep
        simp
      · split at hstep
        · cases hstep
          simp
        · cases hstep
          simp
          omega
    obtain ⟨ih1, ih2⟩ := ih db2 n2
    rw [List.foldl_cons, hstep]
    simp only [List.length_cons]
    omega

/-- C2 amended: rows are inserted directly, with no field validation; a row is
    skipped only when its marks fail the numeric parse or its roll collides, the
    batch never aborts, the inserted count is exactly the number of rows that
    landed in the table and never exceeds the rows seen; the claim example
    inserts both of its rows (2 of 2), including the empty-name row. -/
theorem C2_import_inserts_without_validation :
    (∀ db now rows,
      ((import_rows db now rows).1.students.length
        = db.students.length + (import_rows db now rows).2) ∧
      (import_rows db now rows).2 ≤ rows.length) ∧
    (import_rows emptyDB "t0" [amyRow, blankNameRow]).2
      = (2 : Nat) := by
  constructor
  · intro db now rows
    have h := import_fold_accounting now rows db 0
    unfold import_rows
    omega
  · decide

/-- C1: deleting a stored row and then undoing restores a row identical in all
    six fields: the undo entry keeps the full fetched row, id and created_at
    included, and the re-insert writes it back verbatim, so the student table
    after the undo is, as a bag of rows, exactly the table before the delete.
    The id and roll uniqueness hypotheses are the table UNIQUE constraints. -/
theorem C1_delete_then_undo_restores (s : AppState) (role : String) (r : Student)
    (hrole : role ≠ "Guest")
    (hmem : r ∈ s.db.students)
    (hid : (s.db.students.map Student.id).Nodup)
    (hroll : (s.db.students.map Student.roll).Nodup) :
    (delete_student role (some r.id) s).2 = .ok ∧
    (undo_action (delete_student role (some r.id) s).1).2 = .done ∧
    ((undo_action (delete_student role (some r.id) s).1).1.db.students).Perm
      s.db.students := by
  have hner : (role == "Guest") = false := beq_eq_false_iff_ne.mpr hrole
  have hfind : s.db.students.find? (fun t => t.id == r.id) = some r := by
    apply find_of_mem_of_unique hmem (by simp)
    intro y hy hpy
    exact List.inj_on_of_nodup_map hid hy hmem (by simpa using hpy)
  have hdel : delete_student role (some r.id) s =
      ({ db := { s.db with students := s.db.students.filter (fun t => t.id != r.id) },
         undo_stack := .insert r :: s.undo_stack,
         redo_stack := [] }, .ok) := by
    simp [delete_student, hner, hfind]
  have hany : (s.db.students.filter (fun t => t.id != r.id)).any
      (fun t => t.id == r.id || t.roll == r.roll) = false := by
    rw [List.any_eq_false]
    intro t ht
    obtain ⟨htmem, htid⟩ := List.mem_filter.mp ht
    intro hcon
    rcases (Bool.or_eq_true _ _).mp hcon with h | h
    · exact absurd h (by simpa using htid)
    · have hteq : t = r := List.inj_on_of_nodup_map hroll htmem hmem (by simpa using h)
      subst hteq
      simp at htid
  have hundo : undo_action
      ({ db := { s.db with students := s.db.students.filter (fun t => t.id != r.id) },
         undo_stack := .insert r :: s.undo_stack,
         redo_stack := [] } : AppState) =
      ({ db := { students := s.db.students.filter (fun t => t.id != r.id) ++ [r],
                 nextId := max s.db.nextId (r.id + 1) },
         undo_stack := s.undo_stack,
         redo_stack := [.delete r.roll] }, .done) := by
    simp [undo_action, hany]
  refine ⟨by rw [hdel], by rw [hdel, hundo], ?_⟩
  rw [hdel, hundo]
  exact filter_remove_unique (List.Nodup.of_map Student.id hid) hmem (by simp)
    (fun y hy hpy => List.inj_on_of_nodup_map hid hy hmem (by simpa using hpy))

/-- C1 witness: delete then undo on the example state restores the table. -/
theorem C1_delete_then_undo_restores_witness :
    (delete_student "Admin" (some exStudent1.id) exState).2 = .ok ∧
    (undo_action (delete_student "Admin" (some exStudent1.id) exState).1).2 = .done ∧
    ((undo_action (delete_student "Admin" (some exStudent1.id) exState).1).1.db.students).Perm
      exState.db.students :=
  C1_delete_then_undo_restores exState "Admin" exStudent1 (by decide) (by decide)
    (by decide) (by decide)

/-- Two stored rows whose names are NOCASE-equal, ids 1 and 2. -/
def tieA : Student :=
  { id := 1, name := "Amy", roll := "1", course := "CS", marks := 50, created_at := "t1" }

/-- The second NOCASE-equal row. -/
def tieB : Student :=
  { id := 2, name := "amy", roll := "2", course := "CS", marks := 60, created_at := "t2" }

/-- A table holding the two NOCASE-equal rows. -/
def tieDB : DB := { students := [tieA, tieB], nextId := 3 }

/-- C5 counterexample: the SELECT orders by the NOCASE key only, with no id
    tiebreaker, so over two rows whose names are NOCASE-equal the page
    [tieB, tieA] (ids 2 then 1) is an admissible result; it violates the
    claimed ascending-id order on ties. -/
theorem C5_counterexample :
    load_page_rows tieDB "" 0 2 [tieB, tieA] ∧ ¬ tiesById [tieB, tieA] := by
  constructor
  · refine ⟨[tieB, tieA], ?_, ?_, rfl⟩
    · have hf : tieDB.students.filter (build_query_filter "") = [tieA, tieB] := by decide
      rw [hf]
      exact List.Perm.swap tieA tieB []
    · show List.Pairwise _ _
      decide
  · intro h
    have h2 := (List.pairwise_cons.mp h).1 tieA (by simp)
    have : (2 : Nat) ≤ 1 := h2 (by decide)
    omega

/-- The five stored students of the pagination example, inserted out of
    alphabetical order. -/
def stAda : Student :=
  { id := 1, name := "Ada", roll := "1", course := "CS", marks := 50, created_at := "t1" }

/-- Second of the five students. -/
def stBen : Student :=
  { id := 2, name := "Ben", roll := "2", course := "CS", marks := 60, created_at := "t2" }

/-- Third of the five students. -/
def stCal : Student :=
  { id := 3, name := "Cal", roll := "3", course := "CS", marks := 70, created_at := "t3" }

/-- Fourth of the five students. -/
def stDee : Student :=
  { id := 4, name := "Dee", roll := "4", course := "CS", marks := 80, created_at := "t4" }

/-- Fifth of the five students. -/
def stEve : Student :=
  { id := 5, name := "Eve", roll := "5", course := "CS", marks := 90, created_at := "t5" }

/-- The five-student table, stored in scrambled insertion order. -/
def fiveDB : DB :=
  { students := [stCal, stAda, stEve, stBen, stDee], nextId := 6 }

/-- The five students in NOCASE name order. -/
def fiveSorted : List Student := [stAda, stBen, stCal, stDee, stEve]

/-- C5 amended: every page the query can return is sorted by name under the
    case-insensitive collation (tie order among NOCASE-equal names is
    unspecified, no id tiebreaker exists); with the empty filter, page size 2
    and the five stored students of the example (pairwise distinct keys), page 0
    is exactly the two alphabetically-first students, and there are 3 pages. -/
theorem C5_pages_sorted_case_insensitive :
    (∀ db searchText page ps out, load_page_rows db searchText page ps out →
      sortedByName out) ∧
    (∀ out, load_page_rows fiveDB "" 0 2 out → out = [stAda, stBen]) ∧
    total_pages fiveDB.students.length 2 = 3 := by
  refine ⟨?_, ?_, by decide⟩
  · rintro db searchText page ps out ⟨ordered, hperm, hsort, hout⟩
    subst hout
    exact List.Pairwise.sublist ((List.take_sublist _ _).trans (List.drop_sublist _ _)) hsort
  · rintro out ⟨ordered, hperm, hsort, hout⟩
    have hf : fiveDB.students.filter (build_query_filter "") = fiveDB.students := by
      decide
    rw [hf] at hperm
    have hperm2 : ordered.Perm fiveSorted :=
      hperm.trans (by decide : (fiveDB.students).Perm fiveSorted)
    have hkeys : (fiveSorted.map nameKey).Nodup := by decide
    have hordkeys : (ordered.map nameKey).Nodup :=
      ((hperm2.map nameKey).nodup_iff).mpr hkeys
    have hne : ordered.Pairwise (fun a b => nameKey a ≠ nameKey b) :=
      List.pairwise_map.mp hordkeys
    haveI hanti : IsAntisymm Student
        (fun a b => nameKey a < nameKey b ∨ a = b) := by
      constructor
      intro a b hab hba
      rcases hab with h | h
      · rcases hba with h2 | h2
        · exact absurd h (lt_asymm h2)
        · exact h2.symm
      · exact h
    have hsort2 : List.Sorted (fun a b => nameKey a < nameKey b ∨ a = b) ordered :=
      (hsort.and hne).imp (fun h => Or.inl (lt_of_le_of_ne h.1 h.2))
    have hsort3 : List.Sorted (fun a b => nameKey a < nameKey b ∨ a = b) fiveSorted := by
      show List.Pairwise _ _
      decide
    have hord : ordered = fiveSorted :=
      List.eq_of_perm_of_sorted hperm2 hsort2 hsort3
    rw [hout, hord]
    decide

/-- C5 witness: a concrete admissible page 0 of the five-student example is
    sorted by the NOCASE key. -/
theorem C5_pages_sorted_witness :
    sortedByName [stAda, stBen] :=
  C5_pages_sorted_case_insensitive.1 fiveDB "" 0 2 [stAda, stBen]
    ⟨fiveSorted, by decide, by show List.Pairwise _ _; decide, by decide⟩
